import Mathlib

/-!
Shallow embedding of `src/user_manager.py` (repository `sysdevfiles/telegrambot`).

The program keeps three JSON documents on disk:
  * the Primary Config (`config.json`), whose `auth.config` field is the
    ordered list of active identifiers read by the VPN daemon;
  * the Tracking Ledger (`manager_tracking.json`), an ordered list of records
    `{username, creator_id, creation_date, expiration_date}`;
  * the Manager Allowlist (`bot_managers.json`), a list of integer ids.

Every management operation is a load → mutate → save sequence.  We model the
post-load state of the three documents as a `Store` and each operation as a
pure function on it; the super-admin identity (`ADMIN_TELEGRAM_ID`, which the
code parses from the environment into an `Optional[int]`) is an explicit
`Option Int` parameter, time is a `Nat` (seconds), and date strings are
modelled by `DateStr`: the strings the program itself writes via `strftime`
are always well-formed (`valid t`), while arbitrary on-disk strings may be
`malformed` (on which `strptime` raises `ValueError`, and the empty string is
falsy).  File writes are modelled as succeeding; the result of the
`_restart_zivpn_service` collaborator is an explicit `Bool` argument
(`reloadOk`) on the operations that invoke it, since the code only logs it.
-/

/-- A date string as stored in the tracking ledger.  `valid t` is a
well-formed `"%Y-%m-%d %H:%M:%S"` string denoting time `t`; `malformed s` is
any other string (`strptime` raises on it; `s = ""` is additionally falsy). -/
inductive DateStr where
  | valid (t : Nat)
  | malformed (s : String)
deriving DecidableEq, Repr

/-- One record of the Tracking Ledger, after `_load_tracking_data` has
checked that all four required keys are present. -/
structure TrackEntry where
  username : String
  creator_id : Int
  creation_date : DateStr
  expiration_date : DateStr
deriving DecidableEq, Repr

/-- The state of the three persisted documents: the Primary Config's active
list (`main_data["auth"]["config"]`), the Tracking Ledger, and the Manager
Allowlist. -/
structure Store where
  config : List String
  tracking : List TrackEntry
  managers : List Int
deriving DecidableEq, Repr

/-- `datetime.timedelta(days=30)` in seconds. -/
def thirtyDays : Nat := 30 * 86400

/-- Result of `add_user` (the code returns `(bool, message)`; the constructor
records which of its `return` statements was taken, with the data the message
carries). -/
inductive AddResult where
  | emptyName
  | alreadyExists
  | success (expiration : Nat)
deriving DecidableEq, Repr

/-- Result of `delete_user`.  `permissionDenied c` carries the creator id the
failure message names (`(Creado por: {original_creator_id})`). -/
inductive DeleteResult where
  | emptyName
  | rootProtected
  | inconsistentDeleted
  | inconsistentDenied
  | notFound
  | permissionDenied (creator : Int)
  | success
deriving DecidableEq, Repr

/-- Result of `renew_user`; `success e` carries the new expiration time the
confirmation message shows. -/
inductive RenewResult where
  | emptyName
  | notFound
  | permissionDenied (creator : Int)
  | success (expiration : Nat)
deriving DecidableEq, Repr

/-- Python's `str.lower()` (on the ASCII identifiers at play), written as a
direct map over the character list so that it reduces in the kernel (Lean's
own `String.toLower` is the same map but defined by well-founded recursion,
which does not evaluate definitionally). -/
def pyLower (s : String) : String := ⟨s.data.map Char.toLower⟩

/-- First tracking entry whose `username` matches (the `for i, entry in
enumerate(tracking_data)` search in `delete_user` / `renew_user`). -/
def findTrack : List TrackEntry → String → Option TrackEntry
  | [], _ => none
  | e :: es, u => if e.username = u then some e else findTrack es u

/-- Remove the first tracking entry whose `username` matches
(`del tracking_data[track_entry_index]`). -/
def removeTrack : List TrackEntry → String → List TrackEntry
  | [], _ => []
  | e :: es, u => if e.username = u then es else e :: removeTrack es u

/-- The add-time upsert: the first entry with this `username` (if any) gets
its `creator_id`, `creation_date` and `expiration_date` overwritten;
otherwise a fresh record is appended at the end. -/
def updateTrack : List TrackEntry → String → Int → DateStr → DateStr → List TrackEntry
  | [], u, c, cr, ex => [⟨u, c, cr, ex⟩]
  | e :: es, u, c, cr, ex =>
    if e.username = u then
      { e with creator_id := c, creation_date := cr, expiration_date := ex } :: es
    else
      e :: updateTrack es u c cr ex

/-- The renew-time update: the first entry with this `username` gets its
`expiration_date` overwritten; everything else is untouched. -/
def renewTrack : List TrackEntry → String → DateStr → List TrackEntry
  | [], _, _ => []
  | e :: es, u, d =>
    if e.username = u then { e with expiration_date := d } :: es
    else e :: renewTrack es u d

/-- `add_user(username, creator_id)`.  `now` is `datetime.datetime.now()`,
`reloadOk` the result of `_restart_zivpn_service()` (only logged). -/
def add_user (username : String) (creator_id : Int) (now : Nat) (reloadOk : Bool)
    (s : Store) : AddResult × Store :=
  if username = "" then (.emptyName, s)
  else if username ∈ s.config then (.alreadyExists, s)
  else
    let expiration := now + thirtyDays
    let config' := s.config ++ [username]
    let tracking' := updateTrack s.tracking username creator_id (.valid now) (.valid expiration)
    let _ := reloadOk
    (.success expiration, { s with config := config', tracking := tracking' })

/-- `delete_user(username, admin_id)`.  `adminId` is the parsed
`ADMIN_TELEGRAM_ID` (None when unset or unparsable). -/
def delete_user (username : String) (admin_id : Int) (adminId : Option Int)
    (reloadOk : Bool) (s : Store) : DeleteResult × Store :=
  if username = "" then (.emptyName, s)
  else if pyLower username = "root" then (.rootProtected, s)
  else
    match findTrack s.tracking username with
    | none =>
      if username ∈ s.config then
        if adminId = some admin_id then
          let _ := reloadOk
          (.inconsistentDeleted, { s with config := s.config.erase username })
        else (.inconsistentDenied, s)
      else (.notFound, s)
    | some entry =>
      if entry.creator_id ≠ admin_id ∧ adminId ≠ some admin_id then
        (.permissionDenied entry.creator_id, s)
      else
        let config' := if username ∈ s.config then s.config.erase username else s.config
        let tracking' := removeTrack s.tracking username
        let _ := reloadOk
        (.success, { s with config := config', tracking := tracking' })

/-- `renew_user(username, admin_id)`: persists the tracking ledger only and
never calls the reload collaborator. -/
def renew_user (username : String) (admin_id : Int) (adminId : Option Int)
    (now : Nat) (s : Store) : RenewResult × Store :=
  if username = "" then (.emptyName, s)
  else
    match findTrack s.tracking username with
    | none => (.notFound, s)
    | some entry =>
      if entry.creator_id ≠ admin_id ∧ adminId ≠ some admin_id then
        (.permissionDenied entry.creator_id, s)
      else
        let expiration := now + thirtyDays
        (.success expiration,
          { s with tracking := renewTrack s.tracking username (.valid expiration) })

/-- Case-insensitive key order used by `get_all_users`
(`key=lambda x: x.get("username", "").lower()`). -/
def userLe (a b : TrackEntry) : Bool :=
  decide (pyLower a.username ≤ pyLower b.username)

/-- `get_all_users(admin_id)`: the whole ledger for the super-admin, the
caller's own records otherwise, sorted case-insensitively by username
(Python's stable sort; `List.mergeSort` is the stable analogue). -/
def get_all_users (admin_id : Int) (adminId : Option Int)
    (tracking : List TrackEntry) : List TrackEntry :=
  let filtered := if adminId = some admin_id then tracking
                  else tracking.filter (fun e => e.creator_id = admin_id)
  filtered.mergeSort userLe

/-- The sweep's per-record test: the record marks its username expired iff
the username is non-empty (truthy), `strptime` succeeds on the expiration
string, the parsed date is strictly before `now`, and the lowercased
username is not `"root"`.  A falsy or malformed date string means the record
is skipped. -/
def isExpired (now : Nat) (e : TrackEntry) : Bool :=
  e.username ≠ "" &&
    match e.expiration_date with
    | .valid t => decide (t < now) && pyLower e.username ≠ "root"
    | .malformed _ => false

/-- `check_and_expire_users()`: collects expired usernames, filters both
documents by membership in that collection, persists when anything changed,
and returns whether a persisted change occurred. -/
def check_and_expire_users (now : Nat) (reloadOk : Bool) (s : Store) : Bool × Store :=
  let expired := (s.tracking.filter (isExpired now)).map (·.username)
  if expired = [] then (false, s)
  else
    let newTracking := s.tracking.filter (fun e => e.username ∉ expired)
    let newConfig := s.config.filter (fun u => u ∉ expired)
    let tChanged := newTracking.length ≠ s.tracking.length
    let cChanged := newConfig.length ≠ s.config.length
    if tChanged ∨ cChanged then
      let _ := reloadOk
      (true, { s with
                config := if cChanged then newConfig else s.config,
                tracking := newTracking })
    else (false, s)

/-- Result of `add_bot_manager`. -/
inductive GrantResult where
  | alreadyPrivileged
  | alreadyGranted
  | granted
deriving DecidableEq, Repr

/-- Result of `remove_bot_manager`. -/
inductive RevokeResult where
  | notGranted
  | revoked
deriving DecidableEq, Repr

/-- `add_bot_manager(user_id)`: operates on the allowlist document only. -/
def add_bot_manager (user_id : Int) (adminId : Option Int)
    (managers : List Int) : GrantResult × List Int :=
  if adminId = some user_id then (.alreadyPrivileged, managers)
  else if user_id ∈ managers then (.alreadyGranted, managers)
  else (.granted, managers ++ [user_id])

/-- `remove_bot_manager(user_id)`: `list.remove` drops the first occurrence. -/
def remove_bot_manager (user_id : Int) (managers : List Int) : RevokeResult × List Int :=
  if user_id ∈ managers then (.revoked, managers.erase user_id)
  else (.notGranted, managers)

/-!  Loading (`_load_data`, `_load_tracking_data`).  The on-disk condition of
each file is modelled explicitly: absent, empty (size 0), unparsable JSON,
parsed-but-wrong-shape, or well-formed content. -/

/-- The on-disk condition of `config.json`.  `good cfg` abstracts a parsed
dict with `auth.config` a list; the other daemon fields are opaque, so only
the active list is carried. -/
inductive RawConfigFile where
  | absent
  | emptyFile
  | parseError
  | badShape
  | good (config : List String)
deriving DecidableEq, Repr

/-- `DEFAULT_CONFIG["auth"]["config"]`. -/
def DEFAULT_CONFIG_list : List String :=
  ["root", "neri", "tomas", "yasser", "daniel", "antonio", "mono", "doncarlos"]

/-- `_load_data()`: parsed active list, or the default on any failure (for an
absent file the default is also written to disk first). -/
def load_data : RawConfigFile → List String
  | .absent => DEFAULT_CONFIG_list
  | .emptyFile => DEFAULT_CONFIG_list
  | .parseError => DEFAULT_CONFIG_list
  | .badShape => DEFAULT_CONFIG_list
  | .good cfg => cfg

/-- One element of a parsed tracking JSON array: either not a dict, or a dict
whose four required keys may each be present or missing. -/
inductive RawEntry where
  | notDict
  | dict (username : Option String) (creator : Option Int)
      (creation : Option DateStr) (expiration : Option DateStr)
deriving DecidableEq, Repr

/-- The membership test of the validation loop: `some` exactly when the
element is a dict with all of `username`, `creator_id`, `creation_date`,
`expiration_date` present. -/
def entryFields : RawEntry → Option TrackEntry
  | .notDict => none
  | .dict (some u) (some c) (some cr) (some ex) => some ⟨u, c, cr, ex⟩
  | .dict _ _ _ _ => none

/-- The `for entry in data` validation loop of `_load_tracking_data`:
complete entries are appended to `valid_data`, the rest are logged and
dropped. -/
def validateEntries : List RawEntry → List TrackEntry
  | [] => []
  | e :: es =>
    match entryFields e with
    | some t => t :: validateEntries es
    | none => validateEntries es

/-- The on-disk condition of `manager_tracking.json`. -/
inductive RawTrackingFile where
  | absent
  | emptyFile
  | parseError
  | notList
  | list (entries : List RawEntry)
deriving DecidableEq, Repr

/-- `_load_tracking_data()`: the validated entries, or the empty default on
any failure (for an absent file the empty default is written first). -/
def load_tracking_data : RawTrackingFile → List TrackEntry
  | .absent => []
  | .emptyFile => []
  | .parseError => []
  | .notList => []
  | .list es => validateEntries es

/-! Helper lemmas about the tracking-list operations. -/

theorem updateTrack_of_forall_ne (l : List TrackEntry) (u : String) (c : Int)
    (cr ex : DateStr) (h : ∀ e ∈ l, e.username ≠ u) :
    updateTrack l u c cr ex = l ++ [⟨u, c, cr, ex⟩] := by
  induction l with
  | nil => rfl
  | cons e es ih =>
    have h1 : e.username ≠ u := h e (List.mem_cons_self _ _)
    simp only [updateTrack, if_neg h1]
    rw [ih (fun x hx => h x (List.mem_cons_of_mem _ hx))]
    rfl

theorem findTrack_append_of_forall_ne (l : List TrackEntry) (u : String) (c : Int)
    (cr ex : DateStr) (h : ∀ e ∈ l, e.username ≠ u) :
    findTrack (l ++ [⟨u, c, cr, ex⟩]) u = some ⟨u, c, cr, ex⟩ := by
  induction l with
  | nil => simp [findTrack]
  | cons e es ih =>
    have h1 : e.username ≠ u := h e (List.mem_cons_self _ _)
    simp only [List.cons_append, findTrack, if_neg h1]
    exact ih (fun x hx => h x (List.mem_cons_of_mem _ hx))

theorem removeTrack_append_of_forall_ne (l : List TrackEntry) (u : String) (c : Int)
    (cr ex : DateStr) (h : ∀ e ∈ l, e.username ≠ u) :
    removeTrack (l ++ [⟨u, c, cr, ex⟩]) u = l := by
  induction l with
  | nil => simp [removeTrack]
  | cons e es ih =>
    have h1 : e.username ≠ u := h e (List.mem_cons_self _ _)
    simp only [List.cons_append, removeTrack, if_neg h1]
    exact congrArg (List.cons e) (ih (fun x hx => h x (List.mem_cons_of_mem _ hx)))

theorem renewTrack_map_username (l : List TrackEntry) (u : String) (d : DateStr) :
    (renewTrack l u d).map (·.username) = l.map (·.username) := by
  induction l with
  | nil => rfl
  | cons e es ih =>
    by_cases h : e.username = u
    · simp [renewTrack, if_pos h]
    · simp [renewTrack, if_neg h, ih]

theorem renewTrack_map_creator (l : List TrackEntry) (u : String) (d : DateStr) :
    (renewTrack l u d).map (·.creator_id) = l.map (·.creator_id) := by
  induction l with
  | nil => rfl
  | cons e es ih =>
    by_cases h : e.username = u
    · simp [renewTrack, if_pos h]
    · simp [renewTrack, if_neg h, ih]

theorem renewTrack_map_creation (l : List TrackEntry) (u : String) (d : DateStr) :
    (renewTrack l u d).map (·.creation_date) = l.map (·.creation_date) := by
  induction l with
  | nil => rfl
  | cons e es ih =>
    by_cases h : e.username = u
    · simp [renewTrack, if_pos h]
    · simp [renewTrack, if_neg h, ih]

theorem findTrack_renewTrack (l : List TrackEntry) (u : String) (d : DateStr)
    (e : TrackEntry) (h : findTrack l u = some e) :
    findTrack (renewTrack l u d) u = some { e with expiration_date := d } := by
  induction l with
  | nil => simp [findTrack] at h
  | cons a es ih =>
    by_cases ha : a.username = u
    · simp only [findTrack, if_pos ha] at h
      cases h
      simp [renewTrack, findTrack, if_pos ha, ha]
    · simp only [findTrack, if_neg ha] at h
      simp only [renewTrack, if_neg ha, findTrack, if_neg ha]
      exact ih h

/-- C1.  With a tracking entry present (the first one with this username
carrying the real `creator_id`), an actor that is neither that creator nor
the super-admin gets `PermissionDenied`, the result names that creator, and
the store — both documents — is returned untouched: `delete_user` returns
before any mutation or save. -/
theorem spec_c1_delete_permission_denied
    (u : String) (a : Int) (adminId : Option Int) (r : Bool) (s : Store)
    (e : TrackEntry)
    (hne : u ≠ "") (hroot : pyLower u ≠ "root")
    (hfind : findTrack s.tracking u = some e)
    (hcreator : e.creator_id ≠ a) (hadmin : adminId ≠ some a) :
    delete_user u a adminId r s = (.permissionDenied e.creator_id, s) := by
  simp only [delete_user, if_neg hne, if_neg hroot, hfind]
  rw [if_pos ⟨hcreator, hadmin⟩]

/-- Witness for C1: actor 8 (neither creator 7 nor super-admin 9) is denied
deletion of `alice`, and the message carries creator 7. -/
theorem spec_c1_witness :
    delete_user "alice" 8 (some 9) true
      ⟨["alice"], [⟨"alice", 7, .valid 0, .valid 100⟩], []⟩ =
      (.permissionDenied 7,
        ⟨["alice"], [⟨"alice", 7, .valid 0, .valid 100⟩], []⟩) :=
  spec_c1_delete_permission_denied "alice" 8 (some 9) true
    ⟨["alice"], [⟨"alice", 7, .valid 0, .valid 100⟩], []⟩
    ⟨"alice", 7, .valid 0, .valid 100⟩
    (by decide) (by decide) (by decide) (by decide) (by decide)

/-- C2.  `delete_user("root", actor)` is rejected as protected before the
documents are even loaded: for every actor, every super-admin configuration
and every store, the result is `Protected` and the store is unchanged. -/
theorem spec_c2_root_protected (a : Int) (adminId : Option Int) (r : Bool)
    (s : Store) :
    delete_user "root" a adminId r s = (.rootProtected, s) := rfl

/-- C6.  The result of the reload collaborator (`_restart_zivpn_service`) is
only logged: the outcome and the persisted store of `add_user`,
`delete_user` and `check_and_expire_users` are identical whether the daemon
restart succeeds or fails. -/
theorem spec_c6_reload_irrelevant (u : String) (c a : Int) (adminId : Option Int)
    (now : Nat) (r₁ r₂ : Bool) (s : Store) :
    add_user u c now r₁ s = add_user u c now r₂ s ∧
    delete_user u a adminId r₁ s = delete_user u a adminId r₂ s ∧
    check_and_expire_users now r₁ s = check_and_expire_users now r₂ s :=
  ⟨rfl, rfl, rfl⟩

/-- C4.  For a tracked username and a permitted actor (first-match creator or
super-admin), `renew_user` succeeds, reports and stores expiration exactly
`now + 30 days` — whatever the previous expiration was — changes only the
tracking ledger (config and allowlist untouched), and within the ledger
changes no username, creator or creation date; the renewed first-match entry
keeps all its fields except the expiration. -/
theorem spec_c4_renew_sets_thirty_days
    (u : String) (a : Int) (adminId : Option Int) (now : Nat) (s : Store)
    (e : TrackEntry)
    (hne : u ≠ "") (hfind : findTrack s.tracking u = some e)
    (hperm : e.creator_id = a ∨ adminId = some a) :
    renew_user u a adminId now s =
      (.success (now + thirtyDays),
        { s with tracking := renewTrack s.tracking u (.valid (now + thirtyDays)) }) ∧
    (renewTrack s.tracking u (.valid (now + thirtyDays))).map (·.username) =
      s.tracking.map (·.username) ∧
    (renewTrack s.tracking u (.valid (now + thirtyDays))).map (·.creator_id) =
      s.tracking.map (·.creator_id) ∧
    (renewTrack s.tracking u (.valid (now + thirtyDays))).map (·.creation_date) =
      s.tracking.map (·.creation_date) ∧
    findTrack (renewTrack s.tracking u (.valid (now + thirtyDays))) u =
      some { e with expiration_date := .valid (now + thirtyDays) } := by
  refine ⟨?_, renewTrack_map_username _ _ _, renewTrack_map_creator _ _ _,
    renewTrack_map_creation _ _ _, findTrack_renewTrack _ _ _ _ hfind⟩
  have hcond : ¬(e.creator_id ≠ a ∧ adminId ≠ some a) := by
    rcases hperm with h | h
    · exact fun hc => hc.1 h
    · exact fun hc => hc.2 h
  simp only [renew_user, if_neg hne, hfind, if_neg hcond]

/-- Witness for C4: the creator renews `bob`, whose old expiration 5 is
replaced by exactly `7 + thirtyDays`. -/
theorem spec_c4_witness :
    renew_user "bob" 3 none 7 ⟨["bob"], [⟨"bob", 3, .valid 1, .valid 5⟩], []⟩ =
      (.success (7 + thirtyDays),
        ⟨["bob"], [⟨"bob", 3, .valid 1, .valid (7 + thirtyDays)⟩], []⟩) :=
  (spec_c4_renew_sets_thirty_days "bob" 3 none 7
    ⟨["bob"], [⟨"bob", 3, .valid 1, .valid 5⟩], []⟩
    ⟨"bob", 3, .valid 1, .valid 5⟩
    (by decide) (by decide) (Or.inl (by decide))).1

/-- The sweep's `expired_usernames` list: usernames of the records marked
expired. -/
def expiredNames (now : Nat) (tracking : List TrackEntry) : List String :=
  (tracking.filter (isExpired now)).map (·.username)

theorem isExpired_iff (now : Nat) (e : TrackEntry) :
    isExpired now e = true ↔
      e.username ≠ "" ∧ pyLower e.username ≠ "root" ∧
        ∃ t, e.expiration_date = .valid t ∧ t < now := by
  cases hx : e.expiration_date with
  | valid t =>
    simp only [isExpired, hx, Bool.and_eq_true, decide_eq_true_eq, ne_eq,
      DateStr.valid.injEq]
    constructor
    · rintro ⟨h1, h2, h3⟩
      exact ⟨by simpa using h1, by simpa using h3, t, rfl, h2⟩
    · rintro ⟨h1, h3, t', ht', h2⟩
      cases ht'
      exact ⟨by simpa using h1, h2, by simpa using h3⟩
  | malformed str =>
    simp [isExpired, hx]

theorem expiredNames_ne_root (now : Nat) (tracking : List TrackEntry)
    (n : String) (hn : n ∈ expiredNames now tracking) : pyLower n ≠ "root" := by
  obtain ⟨e, he, rfl⟩ := List.mem_map.mp hn
  have hx : isExpired now e = true := List.of_mem_filter he
  exact ((isExpired_iff now e).mp hx).2.1

/-- Unfolding of `check_and_expire_users`: nothing happens when no record is
marked expired; otherwise both documents are filtered by the expired-name
list and the sweep reports a change (the tracking list necessarily shrank,
so the `users_changed` flag is always set in this branch). -/
theorem check_and_expire_eq (now : Nat) (r : Bool) (s : Store) :
    check_and_expire_users now r s =
      if expiredNames now s.tracking = [] then (false, s)
      else (true,
        ⟨s.config.filter (fun u => u ∉ expiredNames now s.tracking),
         s.tracking.filter (fun e => e.username ∉ expiredNames now s.tracking),
         s.managers⟩) := by
  by_cases hE : expiredNames now s.tracking = []
  · rw [if_pos hE]
    simp only [check_and_expire_users, expiredNames] at hE ⊢
    rw [if_pos hE]
  · rw [if_neg hE]
    have hT : (s.tracking.filter
        (fun e => e.username ∉ expiredNames now s.tracking)).length ≠
        s.tracking.length := by
      intro hlen
      have hall := List.filter_length_eq_length.mp hlen
      obtain ⟨n, hn⟩ := List.exists_mem_of_ne_nil _ hE
      obtain ⟨e, he, hen⟩ := List.mem_map.mp hn
      have heT : e ∈ s.tracking := List.mem_of_mem_filter he
      have hkeep := hall e heT
      simp only [decide_eq_true_eq] at hkeep
      exact hkeep (hen ▸ hn)
    simp only [check_and_expire_users, expiredNames] at hE hT ⊢
    rw [if_neg hE, if_pos (Or.inl hT)]
    by_cases hC : (s.config.filter
        (fun u => u ∉ (s.tracking.filter (isExpired now)).map (·.username))).length ≠
        s.config.length
    · rw [if_pos hC]
    · rw [if_neg hC]
      push_neg at hC
      have : s.config.filter
          (fun u => u ∉ (s.tracking.filter (isExpired now)).map (·.username)) =
          s.config :=
        List.filter_eq_self.mpr (List.filter_length_eq_length.mp hC)
      rw [this]

theorem sweep_mem_tracking (now : Nat) (r : Bool) (s : Store) (e : TrackEntry) :
    e ∈ (check_and_expire_users now r s).2.tracking ↔
      e ∈ s.tracking ∧ e.username ∉ expiredNames now s.tracking := by
  rw [check_and_expire_eq]
  by_cases hE : expiredNames now s.tracking = []
  · simp [hE]
  · simp [hE, List.mem_filter]

theorem sweep_mem_config (now : Nat) (r : Bool) (s : Store) (u : String) :
    u ∈ (check_and_expire_users now r s).2.config ↔
      u ∈ s.config ∧ u ∉ expiredNames now s.tracking := by
  rw [check_and_expire_eq]
  by_cases hE : expiredNames now s.tracking = []
  · simp [hE]
  · simp [hE, List.mem_filter]

theorem sweep_fst (now : Nat) (r : Bool) (s : Store) :
    (check_and_expire_users now r s).1 = true ↔
      expiredNames now s.tracking ≠ [] := by
  rw [check_and_expire_eq]
  by_cases hE : expiredNames now s.tracking = []
  · simp [hE]
  · simp [hE]

theorem sweep_managers (now : Nat) (r : Bool) (s : Store) :
    (check_and_expire_users now r s).2.managers = s.managers := by
  rw [check_and_expire_eq]
  by_cases hE : expiredNames now s.tracking = []
  · simp [hE]
  · simp [hE]

/-- C5.  The sweep reports a persisted change exactly when some record is
marked expired; the surviving tracking records and config identifiers are
exactly those whose (user)name was not marked; a name is marked exactly when
some record carries it with a truthy username, a parseable expiration
strictly before `now`, and a lowercased name different from `"root"` —
malformed or falsy date strings never mark anything (and the sweep is a
total function: it never crashes on them); the allowlist is untouched. -/
theorem spec_c5_sweep_exact (now : Nat) (r : Bool) (s : Store) :
    ((check_and_expire_users now r s).1 = true ↔
      expiredNames now s.tracking ≠ []) ∧
    (∀ e, e ∈ (check_and_expire_users now r s).2.tracking ↔
      e ∈ s.tracking ∧ e.username ∉ expiredNames now s.tracking) ∧
    (∀ u, u ∈ (check_and_expire_users now r s).2.config ↔
      u ∈ s.config ∧ u ∉ expiredNames now s.tracking) ∧
    (∀ n, n ∈ expiredNames now s.tracking ↔
      ∃ e ∈ s.tracking, e.username = n ∧ n ≠ "" ∧ pyLower n ≠ "root" ∧
        ∃ t, e.expiration_date = .valid t ∧ t < now) ∧
    (check_and_expire_users now r s).2.managers = s.managers := by
  refine ⟨sweep_fst now r s, fun e => sweep_mem_tracking now r s e,
    fun u => sweep_mem_config now r s u, fun n => ?_, sweep_managers now r s⟩
  constructor
  · intro hn
    obtain ⟨e, he, rfl⟩ := List.mem_map.mp hn
    have hx := (isExpired_iff now e).mp (List.of_mem_filter he)
    exact ⟨e, List.mem_of_mem_filter he, rfl, hx.1, hx.2.1, hx.2.2⟩
  · rintro ⟨e, he, rfl, h1, h2, t, ht, hlt⟩
    exact List.mem_map.mpr ⟨e, List.mem_filter.mpr ⟨he,
      (isExpired_iff now e).mpr ⟨h1, h2, t, ht, hlt⟩⟩, rfl⟩

/-- C10.  Root protection is case-insensitive: for any identifier whose
lowercase form is `"root"`, `delete_user` fails `Protected` for every actor
and leaves the store untouched, and the sweep removes it from neither the
tracking ledger nor the config list, whatever its expiration date. -/
theorem spec_c10_root_case_insensitive (u : String) (hroot : pyLower u = "root") :
    (∀ (a : Int) (adminId : Option Int) (r : Bool) (s : Store),
      delete_user u a adminId r s = (.rootProtected, s)) ∧
    (∀ (now : Nat) (r : Bool) (s : Store) (e : TrackEntry),
      e ∈ s.tracking → e.username = u →
        e ∈ (check_and_expire_users now r s).2.tracking) ∧
    (∀ (now : Nat) (r : Bool) (s : Store),
      u ∈ s.config → u ∈ (check_and_expire_users now r s).2.config) := by
  have hne : u ≠ "" := by
    rintro rfl
    exact absurd hroot (by decide)
  refine ⟨fun a adminId r s => ?_, fun now r s e he heu => ?_, fun now r s hu => ?_⟩
  · simp only [delete_user, if_neg hne, if_pos hroot]
  · refine (sweep_mem_tracking now r s e).mpr ⟨he, fun hmem => ?_⟩
    exact expiredNames_ne_root now s.tracking e.username hmem (heu ▸ hroot)
  · refine (sweep_mem_config now r s u).mpr ⟨hu, fun hmem => ?_⟩
    exact expiredNames_ne_root now s.tracking u hmem hroot

/-- Witness for C10 at `"ROOT"`: even with an expiration long past (time 0
versus now = 5), deletion is refused and the sweep keeps `ROOT` in both
documents. -/
theorem spec_c10_witness :
    delete_user "ROOT" 2 (some 2) true
        ⟨["ROOT"], [⟨"ROOT", 1, .valid 0, .valid 0⟩], []⟩ =
      (.rootProtected, ⟨["ROOT"], [⟨"ROOT", 1, .valid 0, .valid 0⟩], []⟩) ∧
    (⟨"ROOT", 1, .valid 0, .valid 0⟩ : TrackEntry) ∈
      (check_and_expire_users 5 true
        ⟨["ROOT"], [⟨"ROOT", 1, .valid 0, .valid 0⟩], []⟩).2.tracking ∧
    "ROOT" ∈ (check_and_expire_users 5 true
        ⟨["ROOT"], [⟨"ROOT", 1, .valid 0, .valid 0⟩], []⟩).2.config :=
  ⟨(spec_c10_root_case_insensitive "ROOT" (by decide)).1 2 (some 2) true _,
   (spec_c10_root_case_insensitive "ROOT" (by decide)).2.1 5 true
     ⟨["ROOT"], [⟨"ROOT", 1, .valid 0, .valid 0⟩], []⟩
     ⟨"ROOT", 1, .valid 0, .valid 0⟩ (by decide) (by decide),
   (spec_c10_root_case_insensitive "ROOT" (by decide)).2.2 5 true
     ⟨["ROOT"], [⟨"ROOT", 1, .valid 0, .valid 0⟩], []⟩ (by decide)⟩

/-- Counterexample for C8 as stated: on an allowlist holding the identity
twice (the loader `_load_bot_managers` keeps duplicates; only `grant`
refuses them), `list.remove` drops a single occurrence, so the second
consecutive revoke of `5` on `[5, 5]` succeeds with `Revoked` instead of
failing `NotGranted`. -/
theorem spec_c8_counterexample :
    remove_bot_manager 5 [5, 5] = (.revoked, [5]) ∧
    remove_bot_manager 5 (remove_bot_manager 5 [5, 5]).2 = (.revoked, []) := by
  decide

/-- C8 (amended).  `grant` fails `AlreadyPrivileged` for the super-admin and
`AlreadyGranted` for a present identity, otherwise appends and persists;
`revoke` fails `NotGranted` for an absent identity, otherwise removes its
first occurrence; the allowlist is unchanged on every failure.  A second
consecutive grant of a non-admin identity fails `AlreadyGranted`; a second
consecutive revoke fails `NotGranted` provided the identity is no longer
present once one occurrence is removed (it occurred at most once — the only
situation `grant` itself can produce). -/
theorem spec_c8_allowlist (i : Int) (adminId : Option Int) (ms : List Int) :
    (adminId = some i → add_bot_manager i adminId ms = (.alreadyPrivileged, ms)) ∧
    (adminId ≠ some i → i ∈ ms →
      add_bot_manager i adminId ms = (.alreadyGranted, ms)) ∧
    (adminId ≠ some i → i ∉ ms →
      add_bot_manager i adminId ms = (.granted, ms ++ [i])) ∧
    (i ∉ ms → remove_bot_manager i ms = (.notGranted, ms)) ∧
    (i ∈ ms → remove_bot_manager i ms = (.revoked, ms.erase i)) ∧
    (adminId ≠ some i → i ∉ ms →
      add_bot_manager i adminId (add_bot_manager i adminId ms).2 =
        (.alreadyGranted, ms ++ [i])) ∧
    (i ∈ ms → i ∉ ms.erase i →
      remove_bot_manager i (remove_bot_manager i ms).2 =
        (.notGranted, ms.erase i)) := by
  refine ⟨fun h => ?_, fun h1 h2 => ?_, fun h1 h2 => ?_, fun h => ?_,
    fun h => ?_, fun h1 h2 => ?_, fun h1 h2 => ?_⟩
  · simp [add_bot_manager, if_pos h]
  · simp [add_bot_manager, if_neg h1, if_pos h2]
  · simp [add_bot_manager, if_neg h1, if_neg h2]
  · simp [remove_bot_manager, if_neg h]
  · simp [remove_bot_manager, if_pos h]
  · have hfirst : add_bot_manager i adminId ms = (.granted, ms ++ [i]) := by
      simp [add_bot_manager, if_neg h1, if_neg h2]
    rw [hfirst]
    simp [add_bot_manager, if_neg h1]
  · have hfirst : remove_bot_manager i ms = (.revoked, ms.erase i) := by
      simp [remove_bot_manager, if_pos h1]
    rw [hfirst]
    simp [remove_bot_manager, if_neg h2]

/-- Witness for C8, the spec's own scenario around identity 555 (super-admin
is 1): grant then grant again fails `AlreadyGranted`; revoke then revoke
again fails `NotGranted`. -/
theorem spec_c8_witness :
    add_bot_manager 555 (some 1) [] = (.granted, [555]) ∧
    add_bot_manager 555 (some 1) (add_bot_manager 555 (some 1) []).2 =
      (.alreadyGranted, [555]) ∧
    remove_bot_manager 555 [555] = (.revoked, []) ∧
    remove_bot_manager 555 (remove_bot_manager 555 [555]).2 =
      (.notGranted, []) :=
  ⟨(spec_c8_allowlist 555 (some 1) []).2.2.1 (by decide) (by decide),
   (spec_c8_allowlist 555 (some 1) []).2.2.2.2.2.1 (by decide) (by decide),
   (spec_c8_allowlist 555 (some 1) [555]).2.2.2.2.1 (by decide),
   (spec_c8_allowlist 555 (some 1) [555]).2.2.2.2.2.2 (by decide) (by decide)⟩

/-- The validation loop keeps exactly the complete entries, in order. -/
theorem validateEntries_eq_filterMap (es : List RawEntry) :
    validateEntries es = es.filterMap entryFields := by
  induction es with
  | nil => rfl
  | cons e es ih =>
    cases h : entryFields e with
    | none => simp only [validateEntries, h, ih, List.filterMap_cons_none h]
    | some t => simp only [validateEntries, h, ih, List.filterMap_cons_some h]

/-- C7.  Loading the Primary Config yields the parsed document, and the
default structure on an absent, empty, unparsable or wrongly-shaped file —
every on-disk condition maps to a result (the model is a total function:
nothing propagates to the caller).  Loading the Tracking Ledger yields the
empty default on the failure conditions, and otherwise keeps exactly the
entries that are dicts carrying all four required fields, dropping the rest
individually instead of failing the load. -/
theorem spec_c7_load_recovery :
    load_data .absent = DEFAULT_CONFIG_list ∧
    load_data .emptyFile = DEFAULT_CONFIG_list ∧
    load_data .parseError = DEFAULT_CONFIG_list ∧
    load_data .badShape = DEFAULT_CONFIG_list ∧
    (∀ cfg, load_data (.good cfg) = cfg) ∧
    load_tracking_data .absent = [] ∧
    load_tracking_data .emptyFile = [] ∧
    load_tracking_data .parseError = [] ∧
    load_tracking_data .notList = [] ∧
    (∀ es, load_tracking_data (.list es) = es.filterMap entryFields) ∧
    (∀ es t, t ∈ load_tracking_data (.list es) ↔
      ∃ e ∈ es, entryFields e = some t) := by
  refine ⟨rfl, rfl, rfl, rfl, fun cfg => rfl, rfl, rfl, rfl, rfl,
    fun es => validateEntries_eq_filterMap es, fun es t => ?_⟩
  rw [load_tracking_data, validateEntries_eq_filterMap]
  exact List.mem_filterMap

theorem userLe_trans : ∀ (a b c : TrackEntry),
    userLe a b → userLe b c → userLe a c := by
  intro a b c h1 h2
  simp only [userLe, decide_eq_true_eq] at h1 h2 ⊢
  exact le_trans h1 h2

theorem userLe_total : ∀ (a b : TrackEntry), userLe a b || userLe b a := by
  intro a b
  simp only [userLe, Bool.or_eq_true, decide_eq_true_eq]
  exact le_total _ _

/-- C9.  `get_all_users` returns the whole ledger (up to the sort
permutation) for the super-admin and exactly the caller's own records
otherwise, pairwise ordered by the case-insensitive username key; hence the
super-admin's result is at least as long as any other actor's over the same
ledger. -/
theorem spec_c9_list_scoped (a b : Int) (adminId : Option Int)
    (tr : List TrackEntry) :
    (adminId = some a → (get_all_users a adminId tr).Perm tr) ∧
    (adminId ≠ some a → (get_all_users a adminId tr).Perm
      (tr.filter (fun e => e.creator_id = a))) ∧
    List.Pairwise (fun x y => userLe x y = true) (get_all_users a adminId tr) ∧
    (adminId = some b →
      (get_all_users a adminId tr).length ≤ (get_all_users b adminId tr).length) := by
  refine ⟨fun h => ?_, fun h => ?_, ?_, fun h => ?_⟩
  · simp only [get_all_users, if_pos h]
    exact List.mergeSort_perm tr userLe
  · simp only [get_all_users, if_neg h]
    exact List.mergeSort_perm _ userLe
  · simp only [get_all_users]
    exact List.sorted_mergeSort userLe_trans userLe_total _
  · have hb : get_all_users b adminId tr = tr.mergeSort userLe := by
      simp only [get_all_users, if_pos h]
    rw [hb, List.length_mergeSort]
    by_cases ha : adminId = some a
    · simp only [get_all_users, if_pos ha, List.length_mergeSort, le_refl]
    · simp only [get_all_users, if_neg ha, List.length_mergeSort]
      exact List.length_filter_le _ _

/-- Witness for C9 over a two-creator ledger (super-admin 9): the admin sees
both records, actor 1 sees only their own, and the admin's list is at least
as long. -/
theorem spec_c9_witness :
    (get_all_users 9 (some 9)
      [⟨"b", 2, .valid 0, .valid 1⟩, ⟨"A", 1, .valid 0, .valid 1⟩]).Perm
      [⟨"b", 2, .valid 0, .valid 1⟩, ⟨"A", 1, .valid 0, .valid 1⟩] ∧
    (get_all_users 1 (some 9)
      [⟨"b", 2, .valid 0, .valid 1⟩, ⟨"A", 1, .valid 0, .valid 1⟩]).Perm
      ([⟨"b", 2, .valid 0, .valid 1⟩, ⟨"A", 1, .valid 0, .valid 1⟩].filter
        (fun e => e.creator_id = 1)) ∧
    (get_all_users 1 (some 9)
      [⟨"b", 2, .valid 0, .valid 1⟩, ⟨"A", 1, .valid 0, .valid 1⟩]).length ≤
    (get_all_users 9 (some 9)
      [⟨"b", 2, .valid 0, .valid 1⟩, ⟨"A", 1, .valid 0, .valid 1⟩]).length :=
  ⟨(spec_c9_list_scoped 9 9 (some 9)
      [⟨"b", 2, .valid 0, .valid 1⟩, ⟨"A", 1, .valid 0, .valid 1⟩]).1 rfl,
   (spec_c9_list_scoped 1 9 (some 9)
      [⟨"b", 2, .valid 0, .valid 1⟩, ⟨"A", 1, .valid 0, .valid 1⟩]).2.1 (by decide),
   (spec_c9_list_scoped 1 9 (some 9)
      [⟨"b", 2, .valid 0, .valid 1⟩, ⟨"A", 1, .valid 0, .valid 1⟩]).2.2.2 rfl⟩

/-- Counterexample for C3 as stated (every `u ≠ "root"`, every actor, every
starting state).  First input: `u = "Root"` (different from `"root"`, so the
claim covers it) on empty documents — `add` succeeds but `delete` refuses the
case-insensitively protected name, so `Root` stays behind.  Second input:
`u = "alice"` already active with a tracking entry owned by the calling
actor — `add` fails `AlreadyExists` without touching anything, but the
immediately following `delete` succeeds and removes `alice`, so the
round trip ends below the starting state. -/
theorem spec_c3_counterexample :
    (delete_user "Root" 1 none true
        (add_user "Root" 1 0 true ⟨[], [], []⟩).2).2 ≠ (⟨[], [], []⟩ : Store) ∧
    (delete_user "alice" 7 none true
        (add_user "alice" 7 0 true
          ⟨["alice"], [⟨"alice", 7, .valid 0, .valid 1⟩], []⟩).2).2 ≠
      (⟨["alice"], [⟨"alice", 7, .valid 0, .valid 1⟩], []⟩ : Store) := by
  decide

/-- C3 (amended).  The round trip `add(u, a)` then `delete(u, a)` restores
the Primary Config active list and the Tracking Ledger exactly, provided the
identifier's lowercase form is not `"root"` and the identifier is fresh:
neither already active in the config list nor carried by any tracking entry
(so that `add` genuinely appends and `delete` removes exactly what `add`
created). -/
theorem spec_c3_round_trip (u : String) (a : Int) (adminId : Option Int)
    (now : Nat) (r₁ r₂ : Bool) (s : Store)
    (hroot : pyLower u ≠ "root") (hcfg : u ∉ s.config)
    (htr : ∀ e ∈ s.tracking, e.username ≠ u) :
    (delete_user u a adminId r₂ (add_user u a now r₁ s).2).2 = s := by
  by_cases hne : u = ""
  · subst hne
    simp [add_user, delete_user]
  · have hadd : (add_user u a now r₁ s).2 =
        { s with config := s.config ++ [u],
                 tracking := s.tracking ++
                   [⟨u, a, .valid now, .valid (now + thirtyDays)⟩] } := by
      simp only [add_user, if_neg hne, if_neg hcfg]
      rw [updateTrack_of_forall_ne _ _ _ _ _ htr]
    rw [hadd]
    have hfind := findTrack_append_of_forall_ne s.tracking u a
      (.valid now) (.valid (now + thirtyDays)) htr
    simp only [delete_user, if_neg hne, if_neg hroot, hfind]
    rw [if_neg (fun hc => hc.1 rfl)]
    have hmem : u ∈ s.config ++ [u] := List.mem_append_right _ (List.mem_singleton.mpr rfl)
    rw [if_pos hmem, List.erase_append_right _ hcfg,
      removeTrack_append_of_forall_ne _ _ _ _ _ htr]
    simp

/-- Witness for the amended C3: an actor adds fresh `alice` to empty
documents and immediately deletes her; both documents come back empty. -/
theorem spec_c3_witness :
    (delete_user "alice" 1 none false
        (add_user "alice" 1 0 true ⟨[], [], []⟩).2).2 = (⟨[], [], []⟩ : Store) :=
  spec_c3_round_trip "alice" 1 none 0 true false ⟨[], [], []⟩
    (by decide) (by decide) (by decide)
